import Mathlib

/-!
Verification of the chain-synchronisation engine specification against the
source of coolcode/go-ethereum-analysis.

The development shallowly embeds the relevant Go functions:
  - core/gas_pool (GasPool.SubGas),
  - trie/node.go (nodeFlag.canUnload, decodeNode / decodeShort / decodeFull /
    decodeRef over the canonical RLP splitter),
  - the downloader (synchronise's compare-and-swap gate, syncWithPeer's pivot
    computation, findAncestor, processHeaders' rollback bookkeeping and header
    verification frequency, the deliver entry points, and the RTT/TTL
    quality-of-service estimator).
Machine integers are modelled as Nat with explicit modular arithmetic where
overflow matters (uint16 generation counters); fallible code returns Except.
-/

namespace GethSync

/-! ## core: GasPool (src/unnamed/part_000) -/

/-- Errors surfaced by the gas pool. -/
inductive GasErr where
  | gasLimitReached
  deriving DecidableEq, Repr

/-- GasPool tracks the amount of gas available during execution of the
transactions in a block; it is a uint64 in the source, modelled as Nat
(SubGas never underflows thanks to its guard). -/
abbrev GasPool := Nat

/-- SubGas deducts the given amount from the pool if enough gas is available
and returns an error otherwise, embedding core.GasPool.SubGas.  The result
pairs the returned error (none for nil) with the pool after the call. -/
def SubGas (gp : GasPool) (amount : Nat) : Option GasErr × GasPool :=
  if gp < amount then (some .gasLimitReached, gp)
  else (none, gp - amount)

/-! ## trie: node flags and canUnload (src/trie/node.go) -/

/-- nodeFlag contains caching-related metadata about a node: the cached hash
(possibly nil), the uint16 cache generation counter, and the dirty bit. -/
structure NodeFlag where
  hash  : Option (List Nat)
  gen   : Nat
  dirty : Bool
  deriving DecidableEq, Repr

/-- uint16 subtraction a − b modulo 2^16, as performed by the Go expression
`cachegen - n.gen` on uint16 operands. -/
def u16sub (a b : Nat) : Nat :=
  (a % 65536 + 65536 - b % 65536) % 65536

/-- canUnload on a nodeFlag: not dirty and the generation distance (uint16
arithmetic) has reached the cache limit. -/
def NodeFlag.canUnload (f : NodeFlag) (cachegen cachelimit : Nat) : Bool :=
  !f.dirty && decide (u16sub cachegen f.gen ≥ cachelimit)

/-- Trie nodes: a branch node with 17 child slots (nil children are none), a
short node whose value may itself be a node reference (none when the decoded
reference was empty), a 32-byte hash reference, and a raw value. -/
inductive TrieNode where
  | full  (children : List (Option TrieNode)) (flags : NodeFlag)
  | short (key : List Nat) (val : Option TrieNode) (flags : NodeFlag)
  | hash  (h : List Nat)
  | value (v : List Nat)

/-- canUnload dispatch over the node variants, embedding the four Go methods:
fullNode and shortNode defer to their flags, hashNode and valueNode always
report false. -/
def TrieNode.canUnload : TrieNode → Nat → Nat → Bool
  | .full _ f, gen, limit => f.canUnload gen limit
  | .short _ _ f, gen, limit => f.canUnload gen limit
  | .hash _, _, _ => false
  | .value _, _, _ => false

/-! ## Claim C10 -/

/-- C10: for every GasPool gp and amount, SubGas(amount) returns the
gas-limit-reached error and leaves the pool unchanged whenever the pool holds
less than amount; otherwise it decreases the pool by exactly amount and
returns nil. -/
theorem subGas_spec (gp amount : Nat) :
    (gp < amount → SubGas gp amount = (some .gasLimitReached, gp)) ∧
    (amount ≤ gp →
      SubGas gp amount = (none, gp - amount) ∧ (gp - amount) + amount = gp) := by
  constructor
  · intro h
    simp [SubGas, h]
  · intro h
    constructor
    · simp [SubGas, Nat.not_lt.mpr h]
    · omega

/-- Witness evaluating C10 on concrete pools: a pool of 5 rejects a deduction
of 7 unchanged, and grants a deduction of 3 leaving 2. -/
theorem subGas_spec_witness :
    SubGas 5 7 = (some .gasLimitReached, 5) ∧
    (SubGas 5 3 = (none, 2) ∧ 2 + 3 = 5) := by
  refine ⟨(subGas_spec 5 7).1 (by decide), ?_⟩
  have h := (subGas_spec 5 3).2 (by decide)
  simpa using h

/-! ## Claim C7 -/

/-- C7: for all generation counters g and cache limits l, a fullNode or
shortNode reports canUnload(g, l) = true iff its flag is not dirty and
g − flag.gen ≥ l (uint16 arithmetic), while hashNode and valueNode report
canUnload(g, l) = false for every g and l. -/
theorem canUnload_spec (g l : Nat) (ch : List (Option TrieNode))
    (k : List Nat) (v : Option TrieNode) (f : NodeFlag) (h w : List Nat) :
    ((TrieNode.full ch f).canUnload g l = true ↔
        f.dirty = false ∧ l ≤ u16sub g f.gen) ∧
    ((TrieNode.short k v f).canUnload g l = true ↔
        f.dirty = false ∧ l ≤ u16sub g f.gen) ∧
    (TrieNode.hash h).canUnload g l = false ∧
    (TrieNode.value w).canUnload g l = false := by
  refine ⟨?_, ?_, rfl, rfl⟩ <;>
    simp [TrieNode.canUnload, NodeFlag.canUnload, ge_iff_le]

/-- Witness evaluating C7 at a concrete clean flag of generation 1 under
current generation 3 and limit 2 (unloadable), and at a hash node. -/
theorem canUnload_spec_witness :
    (TrieNode.full [] ⟨none, 1, false⟩).canUnload 3 2 = true ∧
    (TrieNode.hash [0]).canUnload 3 2 = false := by
  constructor
  · exact (canUnload_spec 3 2 [] [] none ⟨none, 1, false⟩ [0] [0]).1.mpr
      (by constructor <;> decide)
  · exact (canUnload_spec 3 2 [] [] none ⟨none, 1, false⟩ [0] [0]).2.2.1

/-! ## downloader: data model and tunable constants (src/unnamed/part_001) -/

/-- Block headers are opaque for the downloader except for their number and
hash; hashes are abstracted as Nat. -/
structure Header where
  number : Nat
  hash   : Nat
  deriving DecidableEq, Repr

/-- Synchronisation modes. -/
inductive SyncMode where
  | full
  | fast
  | light
  deriving DecidableEq, Repr

/-- Errors of the downloader (the subset the embedded functions can return). -/
inductive DLErr where
  | busy
  | stallingPeer
  | badPeer
  | timeout
  | emptyHeaderSet
  | invalidAncestor
  | invalidChain
  | noSyncActive
  deriving DecidableEq, Repr

/-- Amount of block headers to be fetched per retrieval request. -/
def maxHeaderFetch : Nat := 192

/-- Maximum chain reorganisation: 3 * params.EpochDuration.  The params
package is not part of src; its EpochDuration (the 30000-block proof-of-work
epoch) is modelled from the spec's glossary entry for Epoch. -/
def maxForkAncestry : Nat := 3 * 30000

/-- Number of header download results to import at once into the chain. -/
def maxHeadersProcess : Nat := 2048

/-- Verification frequency of the downloaded headers during fast sync. -/
def fsHeaderCheckFrequency : Nat := 100

/-- Number of headers to discard in case a chain violation is detected. -/
def fsHeaderSafetyNet : Nat := 2048

/-- Number of headers to verify before and after the pivot to accept it. -/
def fsHeaderForceVerify : Nat := 24

/-- Number of blocks to retrieve fully even in fast sync. -/
def fsMinFullBlocks : Nat := 64

/-! ## downloader: pivot computation in syncWithPeer (C3) -/

/-- Pivot and origin adjustment performed by Downloader.syncWithPeer after
ancestor discovery: pivot starts at 0; in fast mode, when the peer height is
at most fsMinFullBlocks the origin is reset to 0, otherwise the pivot is
height − fsMinFullBlocks and, when pivot ≤ origin, the origin becomes
pivot − 1.  Returns (pivot, adjusted origin). -/
def pivotAndOrigin (mode : SyncMode) (height origin : Nat) : Nat × Nat :=
  if mode = .fast then
    if height ≤ fsMinFullBlocks then (0, 0)
    else
      let pivot := height - fsMinFullBlocks
      if pivot ≤ origin then (pivot, pivot - 1) else (pivot, origin)
  else (0, origin)

/-! ## downloader: header processing (C1, C4) -/

/-- Verification frequency chosen by processHeaders for a chunk of headers in
fast/light mode: fsHeaderCheckFrequency, overridden to 1 when the chunk's
last header number plus fsHeaderForceVerify exceeds the pivot. -/
def verifyFrequency (chunk : List Header) (pivot : Nat) : Nat :=
  if (chunk.getLastD ⟨0, 0⟩).number + fsHeaderForceVerify > pivot then 1
  else fsHeaderCheckFrequency

/-- Fast/light handling of one chunk of at most maxHeadersProcess headers in
processHeaders.  hasHeader is the lightchain membership oracle and insert the
InsertHeaderChain oracle, returning the count of inserted headers and whether
the insert succeeded (Go: nil error).  On failure the already inserted
headers chunk.take n join the rollback list and the cycle aborts (the error
payload is the rollback list the deferred Rollback will receive); on success
the chunk's unknown headers join the list, which is then trimmed to its
newest fsHeaderSafetyNet entries. -/
def processChunk (hasHeader : Header → Bool)
    (insert : List Header → Nat → Nat × Bool) (pivot : Nat)
    (rollback chunk : List Header) : Except (List Header) (List Header) :=
  let unknown := chunk.filter (fun h => !hasHeader h)
  let frequency := verifyFrequency chunk pivot
  let res := insert chunk frequency
  if !res.2 then .error (rollback ++ chunk.take res.1)
  else
    let rb := rollback ++ unknown
    if rb.length > fsHeaderSafetyNet then .ok (rb.drop (rb.length - fsHeaderSafetyNet))
    else .ok rb

/-- Processing of a whole sequence of chunks by the fast/light path of
processHeaders.  Returns the final rollback list together with true when an
insert failure aborted the cycle (in which case the deferred handler passes
that entire list to Rollback). -/
def runChunks (hasHeader : Header → Bool)
    (insert : List Header → Nat → Nat × Bool) (pivot : Nat)
    (rollback : List Header) : List (List Header) → List Header × Bool
  | [] => (rollback, false)
  | c :: cs =>
    match processChunk hasHeader insert pivot rollback c with
    | .error rb => (rb, true)
    | .ok rb => runChunks hasHeader insert pivot rb cs

/-! ## Claim C3 -/

/-- C3 counterexample: with a fast-mode peer at height 100 and an origin of
50, the pivot is 36 and the origin is set to pivot − 1 = 35, not lowered by
one to 49 as the claim states. -/
theorem pivot_origin_counterexample :
    pivotAndOrigin .fast 100 50 = (36, 35) ∧ (35 : Nat) ≠ 50 - 1 := by
  constructor
  · rfl
  · decide

/-- C3 as amended: in fast mode, when the peer height is at most
fsMinFullBlocks both pivot and origin become 0; otherwise the pivot is
height − fsMinFullBlocks and, whenever pivot ≤ origin, the origin is set to
pivot − 1 (not merely decremented); otherwise the origin is unchanged.  In
every fast-mode case with height above fsMinFullBlocks the adjusted origin
ends up strictly below the pivot, and other modes leave the origin alone with
pivot 0. -/
theorem pivot_origin_amended (height origin : Nat) :
    (height ≤ fsMinFullBlocks → pivotAndOrigin .fast height origin = (0, 0)) ∧
    (fsMinFullBlocks < height →
      (pivotAndOrigin .fast height origin).1 = height - fsMinFullBlocks ∧
      (height - fsMinFullBlocks ≤ origin →
        (pivotAndOrigin .fast height origin).2 = height - fsMinFullBlocks - 1) ∧
      (origin < height - fsMinFullBlocks →
        (pivotAndOrigin .fast height origin).2 = origin) ∧
      (pivotAndOrigin .fast height origin).2 < (pivotAndOrigin .fast height origin).1) ∧
    (∀ mode, mode ≠ SyncMode.fast → pivotAndOrigin mode height origin = (0, origin)) := by
  refine ⟨?_, ?_, ?_⟩
  · intro h
    simp [pivotAndOrigin, h]
  · intro h
    have h' : ¬ height ≤ fsMinFullBlocks := by omega
    refine ⟨?_, ?_, ?_, ?_⟩
    · by_cases hc : height - fsMinFullBlocks ≤ origin <;>
        simp [pivotAndOrigin, h', hc]
    · intro hc
      simp [pivotAndOrigin, h', hc]
    · intro hc
      have : ¬ height - fsMinFullBlocks ≤ origin := by omega
      simp [pivotAndOrigin, h', this]
    · by_cases hc : height - fsMinFullBlocks ≤ origin <;>
        simp [pivotAndOrigin, h', hc] <;>
        simp [fsMinFullBlocks] at * <;> omega
  · intro mode hm
    cases mode <;> simp_all [pivotAndOrigin]

/-- Witness evaluating the amended C3: at height 100 / origin 50 the pivot is
36 with origin 35; at height 60 both collapse to 0; full mode keeps origin. -/
theorem pivot_origin_amended_witness :
    (pivotAndOrigin .fast 100 50).1 = 36 ∧
    (pivotAndOrigin .fast 100 50).2 = 35 ∧
    pivotAndOrigin .fast 60 7 = (0, 0) ∧
    pivotAndOrigin .full 100 50 = (0, 50) := by
  have h := pivot_origin_amended 100 50
  have h2 := pivot_origin_amended 60 7
  refine ⟨?_, ?_, h2.1 (by decide), (pivot_origin_amended 100 50).2.2 .full (by decide)⟩
  · simpa using (h.2.1 (by decide)).1
  · simpa using (h.2.1 (by decide)).2.1 (by decide)

/-! ## Claim C4 -/

/-- C4 counterexample: with pivot 100, a chunk ending at header 200 (far
above pivot + 24) is still inserted with frequency 1, and a chunk ending at
header 76 = pivot − 24 (within plus-or-minus 24 of the pivot) is inserted
with frequency 100, so frequency 1 is not used exactly for headers within
plus-or-minus fsHeaderForceVerify of the pivot. -/
theorem verify_frequency_counterexample :
    verifyFrequency [⟨200, 0⟩] 100 = 1 ∧ ¬(100 - 24 ≤ 200 ∧ 200 ≤ 100 + 24) ∧
    verifyFrequency [⟨76, 0⟩] 100 = fsHeaderCheckFrequency ∧
    (100 - 24 ≤ 76 ∧ 76 ≤ 100 + 24) := by
  refine ⟨rfl, by decide, rfl, by decide⟩

/-- C4 as amended: the header processor inserts a fast/light chunk with
frequency 1 exactly when the chunk's last header number plus
fsHeaderForceVerify = 24 exceeds the pivot, and with
fsHeaderCheckFrequency = 100 otherwise; in particular every chunk whose last
header has reached the pivot (and hence every header adjacent to the pivot)
is verified with frequency 1. -/
theorem verify_frequency_amended (chunk : List Header) (pivot : Nat) :
    (verifyFrequency chunk pivot = 1 ↔
      pivot < (chunk.getLastD ⟨0, 0⟩).number + fsHeaderForceVerify) ∧
    (pivot ≤ (chunk.getLastD ⟨0, 0⟩).number → verifyFrequency chunk pivot = 1) ∧
    (verifyFrequency chunk pivot = 1 ∨
      verifyFrequency chunk pivot = fsHeaderCheckFrequency) := by
  have h24 : fsHeaderForceVerify = 24 := rfl
  by_cases hc : pivot < (chunk.getLastD ⟨0, 0⟩).number + fsHeaderForceVerify
  · have he : verifyFrequency chunk pivot = 1 := by
      rw [verifyFrequency, if_pos hc]
    exact ⟨by rw [he]; exact iff_of_true rfl hc, fun _ => he, Or.inl he⟩
  · have he : verifyFrequency chunk pivot = fsHeaderCheckFrequency := by
      rw [verifyFrequency, if_neg hc]
    refine ⟨?_, ?_, Or.inr he⟩
    · rw [he]
      exact iff_of_false (by decide) hc
    · intro h
      exfalso
      omega

/-- Witness evaluating the amended C4 on a chunk ending at header 100 with
pivot 90: frequency is 1, both via the iff and the adjacency consequence. -/
theorem verify_frequency_amended_witness :
    verifyFrequency [⟨100, 0⟩] 90 = 1 ∧
    (90 : Nat) < ([⟨100, 0⟩].getLastD (⟨0, 0⟩ : Header)).number + fsHeaderForceVerify := by
  refine ⟨(verify_frequency_amended [⟨100, 0⟩] 90).2.1 (by decide), by decide⟩

/-! ## Claim C1 -/

/-- InsertHeaderChain oracle that fails on its second header, having inserted
one. -/
def failInsert : List Header → Nat → Nat × Bool := fun _ _ => (1, false)

/-- Lightchain membership oracle knowing no headers. -/
def noneKnown : Header → Bool := fun _ => false

/-- Rollback list that has already been trimmed to fsHeaderSafetyNet
entries. -/
def bigRollback : List Header := (List.range 2048).map (fun i => ⟨i, i⟩)

/-- C1 counterexample: when InsertHeaderChain fails on the batch
[h1, h2, h3] after inserting one header, the rollback list receives the
inserted prefix [h1] and neither the offending header h2 nor the later h3;
furthermore a cycle that aborts with a full 2048-entry rollback list passes
all 2049 accumulated entries to Rollback, not only the newest 2048. -/
theorem rollback_counterexample :
    processChunk noneKnown failInsert 0 [] [⟨1, 1⟩, ⟨2, 2⟩, ⟨3, 3⟩] =
      .error [⟨1, 1⟩] ∧
    ((⟨2, 2⟩ : Header) ∉ ([⟨1, 1⟩] : List Header) ∧
      (⟨3, 3⟩ : Header) ∉ ([⟨1, 1⟩] : List Header)) ∧
    (runChunks noneKnown failInsert 0 bigRollback [[⟨9000, 9000⟩]]).2 = true ∧
    (runChunks noneKnown failInsert 0 bigRollback [[⟨9000, 9000⟩]]).1.length =
      fsHeaderSafetyNet + 1 := by
  refine ⟨rfl, by decide, rfl, ?_⟩
  have h : runChunks noneKnown failInsert 0 bigRollback [[⟨9000, 9000⟩]] =
      (bigRollback ++ [⟨9000, 9000⟩], true) := rfl
  rw [h]
  simp [bigRollback, fsHeaderSafetyNet]

/-- Length of the rollback list carried by an aborting processChunk. -/
theorem processChunk_error_len (hasHeader : Header → Bool)
    (insert : List Header → Nat → Nat × Bool) (pivot : Nat)
    (rollback chunk rb : List Header)
    (h : processChunk hasHeader insert pivot rollback chunk = .error rb) :
    rb.length ≤ rollback.length + chunk.length := by
  simp only [processChunk] at h
  split at h
  · rw [Except.error.injEq] at h
    subst h
    simp only [List.length_append, List.length_take]
    omega
  · split at h <;> simp at h

/-- Shape and length of the rollback list after a successful processChunk:
it is the newest fsHeaderSafetyNet-entry suffix of the previous list extended
with the chunk's unknown headers, hence never longer than the safety net. -/
theorem processChunk_ok_spec (hasHeader : Header → Bool)
    (insert : List Header → Nat → Nat × Bool) (pivot : Nat)
    (rollback chunk rb' : List Header)
    (h : processChunk hasHeader insert pivot rollback chunk = .ok rb') :
    rb' = (rollback ++ chunk.filter (fun h => !hasHeader h)).drop
        ((rollback ++ chunk.filter (fun h => !hasHeader h)).length - fsHeaderSafetyNet) ∧
    rb'.length ≤ fsHeaderSafetyNet := by
  simp only [processChunk] at h
  split at h
  · simp at h
  · split at h
    · rw [Except.ok.injEq] at h
      subst h
      constructor
      · rfl
      · simp only [List.length_drop]
        omega
    · rw [Except.ok.injEq] at h
      subst h
      have hle : (rollback ++ chunk.filter (fun h => !hasHeader h)).length ≤
          fsHeaderSafetyNet := by omega
      constructor
      · rw [Nat.sub_eq_zero_of_le hle, List.drop_zero]
      · exact hle

/-- Aborting runChunks from a within-net rollback list hands Rollback at most
fsHeaderSafetyNet plus one chunk's worth of headers. -/
theorem runChunks_abort_bound (hasHeader : Header → Bool)
    (insert : List Header → Nat → Nat × Bool) (pivot : Nat) :
    ∀ (cs : List (List Header)) (rollback rbF : List Header),
      rollback.length ≤ fsHeaderSafetyNet →
      (∀ c ∈ cs, c.length ≤ maxHeadersProcess) →
      runChunks hasHeader insert pivot rollback cs = (rbF, true) →
      rbF.length ≤ fsHeaderSafetyNet + maxHeadersProcess := by
  intro cs
  induction cs with
  | nil =>
    intro rollback rbF hr _ h
    simp [runChunks] at h
  | cons c cs ih =>
    intro rollback rbF hr hc h
    rw [runChunks] at h
    cases hp : processChunk hasHeader insert pivot rollback c with
    | error rb =>
      rw [hp] at h
      injection h with h1 _
      rw [← h1]
      have h2 := processChunk_error_len hasHeader insert pivot rollback c rb hp
      have h3 := hc c (List.mem_cons_self c cs)
      omega
    | ok rb =>
      rw [hp] at h
      exact ih rb rbF (processChunk_ok_spec hasHeader insert pivot rollback c rb hp).2
        (fun c' hc' => hc c' (List.mem_cons_of_mem c hc')) h

/-- C1 as amended: when InsertHeaderChain fails on a fast/light batch having
inserted n headers, the successfully inserted prefix chunk.take n (not the
offending header and its successors) is appended to the rollback list and the
cycle aborts, the deferred handler passing that entire list — up to
fsHeaderSafetyNet plus maxHeadersProcess entries — to Rollback; after each
successful insert the chunk's locally-unknown headers are appended and the
list is trimmed to its newest fsHeaderSafetyNet = 2048 entries. -/
theorem rollback_amended (hasHeader : Header → Bool)
    (insert : List Header → Nat → Nat × Bool) (pivot : Nat)
    (rollback chunk : List Header) (n : Nat) :
    (insert chunk (verifyFrequency chunk pivot) = (n, false) →
      processChunk hasHeader insert pivot rollback chunk =
        .error (rollback ++ chunk.take n)) ∧
    (∀ rb', processChunk hasHeader insert pivot rollback chunk = .ok rb' →
      rb' = (rollback ++ chunk.filter (fun h => !hasHeader h)).drop
          ((rollback ++ chunk.filter (fun h => !hasHeader h)).length - fsHeaderSafetyNet) ∧
      rb'.length ≤ fsHeaderSafetyNet) ∧
    (∀ (cs : List (List Header)) (rbF : List Header),
      rollback.length ≤ fsHeaderSafetyNet →
      (∀ c ∈ cs, c.length ≤ maxHeadersProcess) →
      runChunks hasHeader insert pivot rollback cs = (rbF, true) →
      rbF.length ≤ fsHeaderSafetyNet + maxHeadersProcess) := by
  refine ⟨?_, ?_, ?_⟩
  · intro h
    simp only [processChunk]
    rw [h]
    simp
  · intro rb' h
    exact processChunk_ok_spec hasHeader insert pivot rollback chunk rb' h
  · intro cs rbF hr hc h
    exact runChunks_abort_bound hasHeader insert pivot cs rollback rbF hr hc h

/-- Witness evaluating the amended C1: a failing insert of [h1, h2, h3] with
one header inserted aborts with rollback [h1], and an aborting single-chunk
cycle stays within 2048 + 2048 entries. -/
theorem rollback_amended_witness :
    processChunk noneKnown failInsert 0 [] [⟨1, 1⟩, ⟨2, 2⟩, ⟨3, 3⟩] =
      .error ([] ++ [⟨1, 1⟩, ⟨2, 2⟩, ⟨3, 3⟩].take 1) ∧
    ([⟨1, 1⟩] : List Header).length ≤ fsHeaderSafetyNet + maxHeadersProcess := by
  constructor
  · exact (rollback_amended noneKnown failInsert 0 [] [⟨1, 1⟩, ⟨2, 2⟩, ⟨3, 3⟩] 1).1 rfl
  · exact (rollback_amended noneKnown failInsert 0 [] [] 1).2.2
      [[⟨1, 1⟩]] [⟨1, 1⟩]
      (by simp)
      (by intro c hc; simp at hc; simp [hc, maxHeadersProcess])
      rfl

/-! ## downloader: findAncestor (C2)

The interactive loops of findAncestor are embedded functionally: the local
chain is an oracle known (HasBlock in full mode, HasHeader otherwise, so the
embedding covers every sync mode), localNum resolves GetHeaderByHash to a
block number, resp is the reply to the initial spaced head request and respAt
the single-header reply used by the binary search.  Cancellation, timeouts
and packets from foreign peers merely make the code wait and are not part of
the functional behaviour. -/

/-- Reorg allowance floor computed at the top of findAncestor: −1, or
ceil − MaxForkAncestry once the local height ceil reaches MaxForkAncestry. -/
def ancestryFloor (ceil : Nat) : Int :=
  if ceil ≥ maxForkAncestry then (ceil : Int) - (maxForkAncestry : Int) else -1

/-- Start of the binary search interval: the floor when positive, else 0. -/
def startAt (floor : Int) : Nat := if floor > 0 then floor.toNat else 0

/-- Validation of the head-fetch reply: header i must sit at number
frm + 16 i, mirroring the chain-ordering check of findAncestor. -/
def checkNumbers (frm : Nat) : Nat → List Header → Bool
  | _, [] => true
  | i, hd :: t => (hd.number == frm + 16 * i) && checkNumbers frm (i + 1) t

/-- Index-annotated copy of a header list. -/
def indexed : Nat → List Header → List (Nat × Header)
  | _, [] => []
  | i, hd :: t => (i, hd) :: indexed (i + 1) t

/-- Newest-first scan of the head-fetch reply for a locally known header
inside the requested window, including findAncestor's head-lie detection: a
known header above the peer's reported height found at slot limit − 1 aborts
with errStallingPeer. -/
def scanCandidates (known : Header → Bool) (frm ceil height limit : Nat) :
    List (Nat × Header) → Except DLErr (Option (Nat × Nat))
  | [] => .ok none
  | (i, hd) :: rest =>
    if hd.number < frm ∨ hd.number > ceil then
      scanCandidates known frm ceil height limit rest
    else if known hd then
      if hd.number > height ∧ i = limit - 1 then .error .stallingPeer
      else .ok (some (hd.number, hd.hash))
    else scanCandidates known frm ceil height limit rest

/-- Head-fetch phase of findAncestor: reject an empty reply, reject replies
breaking the 16-spaced ordering, then scan newest-first for a known header. -/
def headScan (known : Header → Bool) (ceil height : Nat) (resp : List Header) :
    Except DLErr (Option (Nat × Nat)) :=
  let head := min ceil height
  let frm := head - maxHeaderFetch
  let limit := 2 * maxHeaderFetch / 16
  if resp.length = 0 then .error .emptyHeaderSet
  else if checkNumbers frm 0 resp then
    scanCandidates known frm ceil height limit ((indexed 0 resp).reverse)
  else .error .invalidChain

/-- Binary ancestor search of findAncestor: while start + 1 < end, probe the
midpoint with a single-header request, demand exactly one header back, shrink
the interval towards the known side, and cross-check the local header number
against the probe (errBadPeer otherwise). -/
def binSearchLoop (known : Header → Bool) (respAt : Nat → List Header)
    (localNum : Nat → Nat) (start e : Nat) : Except DLErr Nat :=
  if _hlt : start + 1 < e then
    match respAt ((start + e) / 2) with
    | [hd] =>
      if known hd then
        if localNum hd.hash ≠ (start + e) / 2 then .error .badPeer
        else binSearchLoop known respAt localNum ((start + e) / 2) e
      else binSearchLoop known respAt localNum start ((start + e) / 2)
    | _ => .error .badPeer
  else .ok start
termination_by e - start
decreasing_by
  · omega
  · omega

/-- Final allowance guard of findAncestor, applied to the candidate ancestor
of both the head scan and the binary search: a candidate at or below the
floor is errInvalidAncestor. -/
def floorGuard (floor : Int) (n : Nat) : Except DLErr Nat :=
  if (n : Int) ≤ floor then .error .invalidAncestor else .ok n

/-- findAncestor: locate the common ancestor through the head scan, falling
back to the binary search, and guard the result against the reorg floor. -/
def findAncestor (known : Header → Bool) (respAt : Nat → List Header)
    (localNum : Nat → Nat) (ceil height : Nat) (resp : List Header) :
    Except DLErr Nat :=
  match headScan known ceil height resp with
  | .error e => .error e
  | .ok (some (n, _)) => floorGuard (ancestryFloor ceil) n
  | .ok none =>
    match binSearchLoop known respAt localNum (startAt (ancestryFloor ceil))
        (min ceil height) with
    | .error e => .error e
    | .ok s => floorGuard (ancestryFloor ceil) s

/-! ## Claim C2 -/

/-- C2: findAncestor bounds the reorg depth by
floor = max(0, local_head − MaxForkAncestry) — every returned ancestor is at
least ceil − maxForkAncestry, for any oracle instantiation and hence any sync
mode — and whenever the candidate located by the head scan or the binary
search lies below that floor, findAncestor returns errInvalidAncestor
instead of it. -/
theorem findAncestor_floor_spec (known : Header → Bool)
    (respAt : Nat → List Header) (localNum : Nat → Nat) (ceil height : Nat)
    (resp : List Header) :
    (∀ n, findAncestor known respAt localNum ceil height resp = .ok n →
      ceil - maxForkAncestry ≤ n) ∧
    (∀ n hh, headScan known ceil height resp = .ok (some (n, hh)) →
      n < ceil - maxForkAncestry →
      findAncestor known respAt localNum ceil height resp =
        .error .invalidAncestor) ∧
    (∀ s, headScan known ceil height resp = .ok none →
      binSearchLoop known respAt localNum (startAt (ancestryFloor ceil))
        (min ceil height) = .ok s →
      s < ceil - maxForkAncestry →
      findAncestor known respAt localNum ceil height resp =
        .error .invalidAncestor) := by
  have hM : maxForkAncestry = 90000 := rfl
  have hguard : ∀ n m : Nat, floorGuard (ancestryFloor ceil) n = .ok m →
      ceil - maxForkAncestry ≤ m := by
    intro n m hg
    unfold floorGuard at hg
    split at hg
    · cases hg
    · rw [Except.ok.injEq] at hg
      subst hg
      rename_i hc
      unfold ancestryFloor at hc
      split at hc <;> omega
  have hguardlt : ∀ n : Nat, n < ceil - maxForkAncestry →
      floorGuard (ancestryFloor ceil) n = .error .invalidAncestor := by
    intro n hlt
    unfold floorGuard
    rw [if_pos]
    unfold ancestryFloor
    split <;> omega
  refine ⟨?_, ?_, ?_⟩
  · intro n hn
    unfold findAncestor at hn
    cases hs : headScan known ceil height resp with
    | error e => rw [hs] at hn; cases hn
    | ok o =>
      rw [hs] at hn
      match o with
      | some (m, hh) => exact hguard m n hn
      | none =>
        cases hb : binSearchLoop known respAt localNum
            (startAt (ancestryFloor ceil)) (min ceil height) with
        | error e => rw [hb] at hn; cases hn
        | ok s =>
          rw [hb] at hn
          exact hguard s n hn
  · intro n hh hs hlt
    unfold findAncestor
    rw [hs]
    exact hguardlt n hlt
  · intro s hs hb hlt
    unfold findAncestor
    rw [hs, hb]
    exact hguardlt s hlt

/-- Local chain oracle for the witness: only the genesis number is known. -/
def wKnown : Header → Bool := fun hd => hd.number == 0

/-- Binary-search reply oracle for the witness (never consulted). -/
def wRespAt : Nat → List Header := fun _ => []

/-- Local header-number oracle for the witness. -/
def wLocalNum : Nat → Nat := fun _ => 0

/-- Witness for C2: with local and remote heads at 5 and a reply containing
the locally known genesis header, findAncestor returns ancestor 0, which the
theorem places at or above the floor max(0, 5 − maxForkAncestry) = 0. -/
theorem findAncestor_floor_spec_witness :
    findAncestor wKnown wRespAt wLocalNum 5 5 [⟨0, 7⟩] = .ok 0 ∧
    (5 - maxForkAncestry : Nat) ≤ 0 := by
  have h : findAncestor wKnown wRespAt wLocalNum 5 5 [⟨0, 7⟩] = .ok 0 := rfl
  exact ⟨h, (findAncestor_floor_spec wKnown wRespAt wLocalNum 5 5 [⟨0, 7⟩]).1 0 h⟩

/-! ## downloader: RTT / TTL quality of service (C5)

Durations are nanoseconds; the confidence is stored in millionths as in the
source.  The float arithmetic of qosTuner and requestTTL is modelled by
exact integer arithmetic with floor division at the float-to-Duration
truncation points. -/

/-- Nanosecond value of rttMinEstimate = 2s. -/
def rttMinEstimate : Nat := 2000000000

/-- Nanosecond value of rttMaxEstimate = 20s. -/
def rttMaxEstimate : Nat := 20000000000

/-- Constant scaling factor for RTT to TTL conversion. -/
def ttlScaling : Nat := 3

/-- Nanosecond value of ttlLimit = 1 minute. -/
def ttlLimit : Nat := 60000000000

/-- rttMinConfidence = 0.1 in millionths. -/
def rttMinConfidenceM : Nat := 100000

/-- Number of peers above which not to modify RTT confidence. -/
def qosConfidenceCap : Nat := 10

/-- State of the global RTT estimator. -/
structure QoSState where
  rttEstimate   : Nat
  rttConfidence : Nat
  deriving DecidableEq, Repr

/-- Estimator state installed by New: rttEstimate = rttMaxEstimate and full
confidence. -/
def qosInit : QoSState := ⟨rttMaxEstimate, 1000000⟩

/-- Modelled from the spec: peerSet.medianRTT lives in peer.go, which is not
part of src.  Section 4.4 has the tuner blend in the median RTT of the best
qosTuningPeers peers, and rttMinEstimate / rttMaxEstimate are the minimum
and maximum round-trip times targeted for download requests, so the median
handed to the tuner is restricted to [rttMinEstimate, rttMaxEstimate]. -/
def medianRTT (m : Nat) : Nat := max rttMinEstimate (min m rttMaxEstimate)

/-- One qosTuner iteration: blend the median into the estimate with impact
qosTuningImpact = 0.25, then raise the confidence halfway towards 1. -/
def qosTunerStep (st : QoSState) (m : Nat) : QoSState :=
  { rttEstimate := (3 * st.rttEstimate + medianRTT m) / 4,
    rttConfidence := st.rttConfidence + (1000000 - st.rttConfidence) / 2 }

/-- qosReduceConfidence, called when a peer joins with the resulting peer
count: no peers is a connectivity race and does nothing, a single peer means
full confidence, at or above qosConfidenceCap nothing changes, and otherwise
the confidence is scaled by (peers − 1)/peers and floored at
rttMinConfidence. -/
def qosReduceConfidence (st : QoSState) (peers : Nat) : QoSState :=
  if peers = 0 then st
  else if peers = 1 then { st with rttConfidence := 1000000 }
  else if peers ≥ qosConfidenceCap then st
  else if st.rttConfidence * (peers - 1) / peers < rttMinConfidenceM then
    { st with rttConfidence := rttMinConfidenceM }
  else { st with rttConfidence := st.rttConfidence * (peers - 1) / peers }

/-- requestTTL: ttlScaling times the estimate divided by the confidence
(the float quotient truncated to a Duration), capped at ttlLimit. -/
def requestTTL (st : QoSState) : Nat :=
  min (ttlScaling * (st.rttEstimate * 1000000 / st.rttConfidence)) ttlLimit

/-- States of the estimator reachable from the initial value through any
sequence of qosTuner updates and confidence reductions on peer joins. -/
inductive QoSReachable : QoSState → Prop where
  | init : QoSReachable qosInit
  | tune (st : QoSState) (m : Nat) :
      QoSReachable st → QoSReachable (qosTunerStep st m)
  | reduce (st : QoSState) (peers : Nat) :
      QoSReachable st → QoSReachable (qosReduceConfidence st peers)

/-- Estimator invariant: the estimate stays within
[rttMinEstimate, rttMaxEstimate] and the confidence within
[rttMinConfidence, 1]. -/
theorem qos_invariant (st : QoSState) (h : QoSReachable st) :
    rttMinEstimate ≤ st.rttEstimate ∧ st.rttEstimate ≤ rttMaxEstimate ∧
    rttMinConfidenceM ≤ st.rttConfidence ∧ st.rttConfidence ≤ 1000000 := by
  have e1 : rttMinEstimate = 2000000000 := rfl
  have e2 : rttMaxEstimate = 20000000000 := rfl
  have e3 : rttMinConfidenceM = 100000 := rfl
  induction h with
  | init =>
    refine ⟨?_, ?_, ?_, ?_⟩ <;> simp [qosInit, e1, e2, e3, rttMaxEstimate]
  | tune st m _ ih =>
    obtain ⟨h1, h2, h3, h4⟩ := ih
    have hm : rttMinEstimate ≤ medianRTT m ∧ medianRTT m ≤ rttMaxEstimate := by
      unfold medianRTT
      omega
    simp only [qosTunerStep]
    omega
  | reduce st peers _ ih =>
    obtain ⟨h1, h2, h3, h4⟩ := ih
    have hdiv : st.rttConfidence * (peers - 1) / peers ≤ st.rttConfidence := by
      rcases Nat.eq_zero_or_pos peers with hp | hp
      · simp [hp]
      · calc st.rttConfidence * (peers - 1) / peers
            ≤ st.rttConfidence * peers / peers :=
              Nat.div_le_div_right (Nat.mul_le_mul (le_refl _) (by omega))
          _ = st.rttConfidence := Nat.mul_div_cancel st.rttConfidence hp
    unfold qosReduceConfidence
    split_ifs with hp0 hp1 hcap hmin <;> refine ⟨?_, ?_, ?_, ?_⟩ <;>
      (try dsimp only) <;> omega

/-! ## Claim C5 -/

/-- C5: for every reachable state of the RTT estimator — any sequence of
qosTuner updates and confidence reductions on peer join starting from the
initial values — requestTTL() lies within
[rttMinEstimate · ttlScaling, ttlLimit]. -/
theorem requestTTL_clamp (st : QoSState) (h : QoSReachable st) :
    rttMinEstimate * ttlScaling ≤ requestTTL st ∧ requestTTL st ≤ ttlLimit := by
  obtain ⟨h1, h2, h3, h4⟩ := qos_invariant st h
  have e1 : rttMinEstimate = 2000000000 := rfl
  have e3 : rttMinConfidenceM = 100000 := rfl
  constructor
  · apply le_min
    · have hd : st.rttEstimate ≤ st.rttEstimate * 1000000 / st.rttConfidence := by
        have hc : st.rttEstimate * 1000000 / 1000000 ≤
            st.rttEstimate * 1000000 / st.rttConfidence :=
          Nat.div_le_div_left h4 (by omega)
        rwa [Nat.mul_div_cancel st.rttEstimate (by omega)] at hc
      unfold ttlScaling
      omega
    · unfold rttMinEstimate ttlScaling ttlLimit
      omega
  · exact min_le_right _ _

/-- Witness for C5: the initial estimator state is reachable, the theorem
clamps its TTL, and requestTTL there evaluates to exactly ttlLimit. -/
theorem requestTTL_clamp_witness :
    (rttMinEstimate * ttlScaling ≤ requestTTL qosInit ∧
      requestTTL qosInit ≤ ttlLimit) ∧
    requestTTL qosInit = 60000000000 := by
  exact ⟨requestTTL_clamp qosInit QoSReachable.init, rfl⟩

/-! ## downloader: the synchronise gate (C8)

synchronise admits at most one caller through the atomic
CompareAndSwapInt32(&d.synchronising, 0, 1); a failed swap returns errBusy
immediately, and the deferred StoreInt32(&d.synchronising, 0) releases the
gate when the cycle ends.  The model runs two callers of synchronise as two
threads over the shared flag: a thread's first step is the compare-and-swap
(finishing immediately with busy = true when the flag is held), its second
step is the release at cycle end (finishing with busy = false).  Schedules
are arbitrary interleavings of atomic steps. -/

/-- Progress of one synchronise call: not yet entered, holding the gate, or
returned (busy records whether it returned errBusy). -/
inductive CallPhase where
  | idle
  | running
  | finished (busy : Bool)
  deriving DecidableEq, Repr, Fintype

/-- Shared state of two concurrent synchronise calls: the synchronising flag
and both call phases. -/
structure SyncGate where
  flag : Bool
  t0   : CallPhase
  t1   : CallPhase
  deriving DecidableEq, Repr, Fintype

/-- Both calls pending, gate free. -/
def gateInit : SyncGate := ⟨false, .idle, .idle⟩

/-- Phase of the given caller. -/
def SyncGate.phase (s : SyncGate) (i : Bool) : CallPhase :=
  if i then s.t1 else s.t0

/-- Replace the phase of the given caller. -/
def SyncGate.setPhase (s : SyncGate) (i : Bool) (p : CallPhase) : SyncGate :=
  if i then { s with t1 := p } else { s with t0 := p }

/-- One atomic step of caller i: the compare-and-swap on entry (failure
finishes with errBusy, success acquires the gate), or the deferred release
on exit; a finished caller does nothing. -/
def gateStep (s : SyncGate) (i : Bool) : SyncGate :=
  match s.phase i with
  | .idle =>
    if s.flag then s.setPhase i (.finished true)
    else { s.setPhase i .running with flag := true }
  | .running => { s.setPhase i (.finished false) with flag := false }
  | .finished _ => s

/-- Run a schedule of caller steps from a state. -/
def gateRun (sched : List Bool) (s : SyncGate) : SyncGate :=
  sched.foldl gateStep s

/-- Gate invariant: the flag is set exactly when some call is running, and
never are both calls running. -/
abbrev GateInv (s : SyncGate) : Prop :=
  (s.flag = true ↔ (s.t0 = .running ∨ s.t1 = .running)) ∧
  ¬(s.t0 = .running ∧ s.t1 = .running)

/-- Property of every state after an overlapping entry: the second caller
has returned errBusy and the first is still running or has returned without
errBusy. -/
abbrev PostOverlap (i : Bool) (s : SyncGate) : Prop :=
  s.phase (!i) = .finished true ∧
  (s.phase i = .running ∨ s.phase i = .finished false)

/-- Every step preserves the gate invariant. -/
theorem gateStep_inv : ∀ (s : SyncGate) (i : Bool),
    GateInv s → GateInv (gateStep s i) := by decide

/-- Every run preserves the gate invariant. -/
theorem gateRun_inv (sched : List Bool) :
    ∀ s, GateInv s → GateInv (gateRun sched s) := by
  induction sched with
  | nil => intro s h; exact h
  | cons a t ih => intro s h; exact ih _ (gateStep_inv s a h)

/-- Every step preserves PostOverlap. -/
theorem postOverlap_step : ∀ (s : SyncGate) (i j : Bool),
    PostOverlap i s → PostOverlap i (gateStep s j) := by decide

/-- Every run preserves PostOverlap. -/
theorem postOverlap_run (sched : List Bool) :
    ∀ s i, PostOverlap i s → PostOverlap i (gateRun sched s) := by
  induction sched with
  | nil => intro s i h; exact h
  | cons a t ih => intro s i h; exact ih _ i (postOverlap_step s i a h)

/-! ## Claim C8 -/

/-- C8: at most one synchronise cycle is active per Downloader — in every
state reachable from the initial gate under any schedule, the two calls are
never both past the compare-and-swap and unreleased; a call entering while
the other is in progress returns errBusy immediately and leaves the other
running; and when the two calls overlap (the second enters before the first
releases) exactly one of them returns errBusy. -/
theorem synchronise_busy_spec (i : Bool) (sched rest : List Bool) :
    (¬((gateRun sched gateInit).t0 = .running ∧
        (gateRun sched gateInit).t1 = .running)) ∧
    ((gateRun sched gateInit).phase i = .idle →
      (gateRun sched gateInit).phase (!i) = .running →
      (gateStep (gateRun sched gateInit) i).phase i = .finished true ∧
      (gateStep (gateRun sched gateInit) i).phase (!i) = .running) ∧
    ((gateRun (i :: (!i) :: rest) gateInit).phase (!i) = .finished true ∧
      ∀ b, (gateRun (i :: (!i) :: rest) gateInit).phase i = .finished b →
        b = false) := by
  have hinv : GateInv (gateRun sched gateInit) :=
    gateRun_inv sched gateInit (by decide)
  have hbusy : ∀ s : SyncGate, GateInv s → ∀ j : Bool, s.phase j = .idle →
      s.phase (!j) = .running →
      (gateStep s j).phase j = .finished true ∧
      (gateStep s j).phase (!j) = .running := by decide
  have hover : ∀ j : Bool, PostOverlap j (gateStep (gateStep gateInit j) (!j)) := by
    decide
  have hrun : gateRun (i :: (!i) :: rest) gateInit =
      gateRun rest (gateStep (gateStep gateInit i) (!i)) := rfl
  refine ⟨hinv.2, hbusy _ hinv i, ?_⟩
  have hpost : PostOverlap i (gateRun (i :: (!i) :: rest) gateInit) := by
    rw [hrun]
    exact postOverlap_run rest _ i (hover i)
  refine ⟨hpost.1, ?_⟩
  intro b hb
  rcases hpost.2 with hr | hf
  · rw [hr] at hb
    cases hb
  · rw [hf] at hb
    injection hb with h1
    exact h1.symm

/-- Witness for C8: caller 1 entering while caller 0 runs returns errBusy at
once, and over the complete overlapping schedule [0, 1, 0] caller 1 ends
busy while caller 0 ends not busy. -/
theorem synchronise_busy_spec_witness :
    (gateStep (gateRun [false] gateInit) true).phase true = .finished true ∧
    (gateRun [false, true, false] gateInit).phase true = .finished true ∧
    (gateRun [false, true, false] gateInit).phase false = .finished false := by
  refine ⟨((synchronise_busy_spec true [false] []).2.1 (by decide) (by decide)).1,
    (synchronise_busy_spec false [false] [false]).2.2.1, ?_⟩
  have h := (synchronise_busy_spec false [false] [false]).2.2.2 false (by decide)
  decide

/-! ## downloader: the deliver entry points (C9) -/

/-- Data packets injected by the four Deliver entry points. -/
inductive DataPack where
  | headerPack (id : Nat) (headers : List Header)
  | bodyPack (id : Nat) (txs : List (List Nat)) (uncles : List (List Header))
  | receiptPack (id : Nat) (receipts : List (List Nat))
  | statePack (id : Nat) (data : List (List Nat))
  deriving DecidableEq, Repr

/-- deliver reads the current cancel channel under the cancel lock: a nil
channel means no synchronisation is active and the packet is dropped with
errNoSyncActive; otherwise the packet is sent to the destination channel
unless the select is won by a cancellation first (intr), which likewise
drops the packet with errNoSyncActive.  The result pairs the returned error
with the destination channel contents after the call. -/
def deliver (cancelCh : Option Unit) (intr : Bool) (destCh : List DataPack)
    (packet : DataPack) : Except DLErr Unit × List DataPack :=
  match cancelCh with
  | none => (.error .noSyncActive, destCh)
  | some _ =>
    if intr then (.error .noSyncActive, destCh)
    else (.ok (), destCh ++ [packet])

/-- DeliverHeaders injects a batch of block headers into the download
schedule through deliver. -/
def DeliverHeaders (cancelCh : Option Unit) (intr : Bool)
    (headerCh : List DataPack) (id : Nat) (headers : List Header) :
    Except DLErr Unit × List DataPack :=
  deliver cancelCh intr headerCh (.headerPack id headers)

/-- DeliverBodies injects a batch of block bodies through deliver. -/
def DeliverBodies (cancelCh : Option Unit) (intr : Bool)
    (bodyCh : List DataPack) (id : Nat) (txs : List (List Nat))
    (uncles : List (List Header)) : Except DLErr Unit × List DataPack :=
  deliver cancelCh intr bodyCh (.bodyPack id txs uncles)

/-- DeliverReceipts injects a batch of receipts through deliver. -/
def DeliverReceipts (cancelCh : Option Unit) (intr : Bool)
    (receiptCh : List DataPack) (id : Nat) (receipts : List (List Nat)) :
    Except DLErr Unit × List DataPack :=
  deliver cancelCh intr receiptCh (.receiptPack id receipts)

/-- DeliverNodeData injects a batch of node state data through deliver. -/
def DeliverNodeData (cancelCh : Option Unit) (intr : Bool)
    (stateCh : List DataPack) (id : Nat) (dat : List (List Nat)) :
    Except DLErr Unit × List DataPack :=
  deliver cancelCh intr stateCh (.statePack id dat)

/-! ## Claim C9 -/

/-- C9: every DeliverHeaders, DeliverBodies, DeliverReceipts or
DeliverNodeData call made while no synchronisation is active (nil cancel
channel) or whose queuing is interrupted by cancellation returns
errNoSyncActive and leaves the destination channel unchanged — the packet is
discarded, never queued. -/
theorem deliver_no_sync_spec (cancelCh : Option Unit) (intr : Bool)
    (ch : List DataPack) (id : Nat) (headers : List Header)
    (txs : List (List Nat)) (uncles : List (List Header))
    (receipts dat : List (List Nat)) :
    cancelCh = none ∨ intr = true →
    DeliverHeaders cancelCh intr ch id headers = (.error .noSyncActive, ch) ∧
    DeliverBodies cancelCh intr ch id txs uncles = (.error .noSyncActive, ch) ∧
    DeliverReceipts cancelCh intr ch id receipts = (.error .noSyncActive, ch) ∧
    DeliverNodeData cancelCh intr ch id dat = (.error .noSyncActive, ch) := by
  intro h
  have hd : ∀ p : DataPack, deliver cancelCh intr ch p = (.error .noSyncActive, ch) := by
    intro p
    rcases h with h | h
    · simp [deliver, h]
    · cases cancelCh <;> simp [deliver, h]
  exact ⟨hd _, hd _, hd _, hd _⟩

/-- Witness for C9: with no active sync, a delivery of one header to a
channel already holding a packet drops the packet and errors. -/
theorem deliver_no_sync_spec_witness :
    DeliverHeaders none false [.statePack 9 []] 1 [⟨1, 1⟩] =
      (.error .noSyncActive, [.statePack 9 []]) ∧
    DeliverNodeData (some ()) true [] 2 [[3]] = (.error .noSyncActive, []) := by
  refine ⟨(deliver_no_sync_spec none false [.statePack 9 []] 1 [⟨1, 1⟩] [] [] [] []
      (Or.inl rfl)).1, ?_⟩
  exact (deliver_no_sync_spec (some ()) true [] 2 [] [] [] [] [[3]] (Or.inr rfl)).2.2.2

/-! ## rlp: the canonical splitter used by the trie codec

Bytes are Nat values below 256; buffers are byte lists.  The rlp package
itself (rlp/raw.go) is not part of src, so the splitter is modelled from the
spec's §4.1: canonical length-prefixed encoding, single bytes below 0x80
standing for themselves, short and long strings, the mirror tag range for
lists, and mandatory rejection of non-canonical forms. -/

/-- RLP value kinds returned by Split. -/
inductive RlpKind where
  | byteK
  | stringK
  | listK
  deriving DecidableEq, Repr

/-- Errors of the RLP splitter and of the trie node decoder. -/
inductive RlpErr where
  | unexpectedEOF
  | valueTooLarge
  | canonSize
  | expectedString
  | expectedList
  | oversizedNode (size : Nat)
  | invalidStringSize (n : Nat)
  | invalidListCount (c : Nat)
  | fuelOut
  deriving DecidableEq, Repr

/-- Modelled from the spec: rlp readSize — the big-endian size read from
slen bytes; §4.1 demands rejecting non-canonical forms, so sizes below 56
(which fit a short tag) and leading zero bytes are canonSize errors. -/
def readSize (buf : List Nat) (slen : Nat) : Except RlpErr Nat :=
  if buf.length < slen then .error .unexpectedEOF
  else if (buf.take slen).foldl (fun a b => a * 256 + b) 0 < 56 ∨ buf.headD 0 = 0 then
    .error .canonSize
  else .ok ((buf.take slen).foldl (fun a b => a * 256 + b) 0)

/-- Helper of readKind: the content may not outrun the buffer. -/
def checkTotal (len ts cs : Nat) (k : RlpKind) :
    Except RlpErr (RlpKind × Nat × Nat) :=
  if cs > len - ts then .error .valueTooLarge else .ok (k, ts, cs)

/-- Modelled from the spec: rlp readKind — tag dispatch of the canonical
encoding, returning the kind, tag size and content size: bytes below 0x80
are themselves, 0x80–0xb7 short strings (a length-1 string must not have
been a single byte), 0xb8–0xbf long strings, 0xc0–0xf7 short lists and
0xf8–0xff long lists. -/
def readKind (buf : List Nat) : Except RlpErr (RlpKind × Nat × Nat) :=
  match buf with
  | [] => .error .unexpectedEOF
  | b :: rest =>
    if b < 0x80 then checkTotal buf.length 0 1 .byteK
    else if b < 0xB8 then
      if b - 0x80 = 1 ∧ rest.headD 128 < 128 then .error .canonSize
      else checkTotal buf.length 1 (b - 0x80) .stringK
    else if b < 0xC0 then
      match readSize rest (b - 0xB7) with
      | .error e => .error e
      | .ok cs => checkTotal buf.length (b - 0xB7 + 1) cs .stringK
    else if b < 0xF8 then checkTotal buf.length 1 (b - 0xC0) .listK
    else
      match readSize rest (b - 0xF7) with
      | .error e => .error e
      | .ok cs => checkTotal buf.length (b - 0xF7 + 1) cs .listK

/-- Modelled from the spec: rlp.Split — split(buf) of §4.1, returning the
kind, the content bytes and the rest of the buffer. -/
def rlpSplit (buf : List Nat) : Except RlpErr (RlpKind × List Nat × List Nat) :=
  match readKind buf with
  | .error e => .error e
  | .ok (k, ts, cs) => .ok (k, (buf.drop ts).take cs, buf.drop (ts + cs))

/-- Modelled from the spec: rlp.SplitString — Split, demanding a non-list. -/
def splitString (buf : List Nat) : Except RlpErr (List Nat × List Nat) :=
  match rlpSplit buf with
  | .error e => .error e
  | .ok (k, content, rest) =>
    if k = .listK then .error .expectedString else .ok (content, rest)

/-- Modelled from the spec: rlp.SplitList — Split, demanding a list. -/
def splitList (buf : List Nat) : Except RlpErr (List Nat × List Nat) :=
  match rlpSplit buf with
  | .error e => .error e
  | .ok (k, content, rest) =>
    if k = .listK then .ok (content, rest) else .error .expectedList

/-- Modelled from the spec: rlp.CountValues — number of encoded values in
b.  The fuel only bounds the iteration; every value consumes at least one
byte, so the seed used by countValues always suffices. -/
def countValuesF : Nat → List Nat → Except RlpErr Nat
  | 0, _ => .error .fuelOut
  | _ + 1, [] => .ok 0
  | fuel + 1, b =>
    match readKind b with
    | .error e => .error e
    | .ok (_, ts, cs) =>
      match countValuesF fuel (b.drop (ts + cs)) with
      | .error e => .error e
      | .ok c => .ok (c + 1)

/-- CountValues with its fuel seeded. -/
def countValues (b : List Nat) : Except RlpErr Nat := countValuesF (b.length + 1) b

/-! ## trie: node decoding (src/trie/node.go) -/

/-- Length of a hash reference in bytes. -/
def hashLen : Nat := 32

/-- Modelled from the spec: trie keybytesToHex (trie/encoding.go is not part
of src) — §4.2's nibble expansion, two nibbles per byte followed by the
terminator nibble 16. -/
def keybytesToHex (b : List Nat) : List Nat :=
  (b.foldr (fun x acc => x / 16 :: x % 16 :: acc) []) ++ [16]

/-- Modelled from the spec: trie compactToHex — the hex-prefix decoding of
§4.2: the first nibble carries the is-leaf and odd-length flags; the
terminator is dropped for extension keys (flag below 2) and the flag
nibbles are chopped according to the odd-length bit. -/
def compactToHex (compact : List Nat) : List Nat :=
  if compact = [] then []
  else
    let base := keybytesToHex compact
    let base2 := if base.headD 0 < 2 then base.dropLast else base
    base2.drop (2 - base2.headD 0 % 2)

/-- hasTerm reports whether a hex key ends in the terminator nibble. -/
def hasTerm (s : List Nat) : Bool := s.getLast? == some 16

mutual

/-- decodeNode parses the RLP encoding of a trie node: a 2-element list is a
short node, a 17-element list a full node (the error of CountValues is
discarded as in the source, leaving count 0).  The fuel argument only bounds
the recursion depth; each nested decodeNode level strictly shrinks the
buffer, so the seed used by the decodeNode / decodeRef wrappers never runs
out.  The breadcrumb wrapping of errors is dropped: errors carry their
original cause. -/
def decodeNodeF : Nat → Option (List Nat) → Nat → List Nat →
    Except RlpErr TrieNode
  | 0, _, _, _ => .error .fuelOut
  | fuel + 1, hash, cachegen, buf =>
    if buf.length = 0 then .error .unexpectedEOF
    else
      match splitList buf with
      | .error e => .error e
      | .ok (elems, _) =>
        match (countValues elems).toOption.getD 0 with
        | 2 => decodeShortF fuel hash cachegen elems
        | 17 => decodeFullF fuel hash cachegen elems
        | c => .error (.invalidListCount c)
termination_by structural fuel _ _ _ => fuel

/-- decodeShort: split off the compact key; a terminated key makes the node
a leaf holding a value node, otherwise the value is a child reference. -/
def decodeShortF : Nat → Option (List Nat) → Nat → List Nat →
    Except RlpErr TrieNode
  | 0, _, _, _ => .error .fuelOut
  | fuel + 1, hash, cachegen, elems =>
    match splitString elems with
    | .error e => .error e
    | .ok (kbuf, rest) =>
      if hasTerm (compactToHex kbuf) then
        match splitString rest with
        | .error e => .error e
        | .ok (val, _) =>
          .ok (.short (compactToHex kbuf) (some (.value val)) ⟨hash, cachegen, false⟩)
      else
        match decodeRefF fuel cachegen rest with
        | .error e => .error e
        | .ok (r, _) => .ok (.short (compactToHex kbuf) r ⟨hash, cachegen, false⟩)
termination_by structural fuel _ _ _ => fuel

/-- decodeFull: sixteen child references followed by the value slot, which
becomes a value node when non-empty. -/
def decodeFullF : Nat → Option (List Nat) → Nat → List Nat →
    Except RlpErr TrieNode
  | 0, _, _, _ => .error .fuelOut
  | fuel + 1, hash, cachegen, elems =>
    match decodeChildrenF fuel cachegen 16 elems with
    | .error e => .error e
    | .ok (children, rest) =>
      match splitString rest with
      | .error e => .error e
      | .ok (val, _) =>
        .ok (.full (children ++ [if val.length > 0 then some (.value val) else none])
          ⟨hash, cachegen, false⟩)
termination_by structural fuel _ _ _ => fuel

/-- Children loop of decodeFull. -/
def decodeChildrenF : Nat → Nat → Nat → List Nat →
    Except RlpErr (List (Option TrieNode) × List Nat)
  | 0, _, _, _ => .error .fuelOut
  | _ + 1, _, 0, elems => .ok ([], elems)
  | fuel + 1, cachegen, i + 1, elems =>
    match decodeRefF fuel cachegen elems with
    | .error e => .error e
    | .ok (c, rest) =>
      match decodeChildrenF fuel cachegen i rest with
      | .error e => .error e
      | .ok (cs, rest2) => .ok (c :: cs, rest2)
termination_by structural fuel _ _ _ => fuel

/-- decodeRef: a list is an embedded node reference whose total encoded size
must not exceed hashLen (the guard rejects only sizes strictly above 32,
although its error message asks for size < 32); an empty string is an empty
child; a 32-byte string is a hash reference; anything else is an invalid
string size. -/
def decodeRefF : Nat → Nat → List Nat →
    Except RlpErr (Option TrieNode × List Nat)
  | 0, _, _ => .error .fuelOut
  | fuel + 1, cachegen, buf =>
    match rlpSplit buf with
    | .error e => .error e
    | .ok (kind, val, rest) =>
      if kind = .listK then
        if buf.length - rest.length > hashLen then
          .error (.oversizedNode (buf.length - rest.length))
        else
          match decodeNodeF fuel none cachegen buf with
          | .error e => .error e
          | .ok n => .ok (some n, rest)
      else if kind = .stringK ∧ val.length = 0 then .ok (none, rest)
      else if kind = .stringK ∧ val.length = 32 then .ok (some (.hash val), rest)
      else .error (.invalidStringSize val.length)
termination_by structural fuel _ _ => fuel

end

/-- decodeRef with the recursion fuel pre-seeded generously. -/
def decodeRef (cachegen : Nat) (buf : List Nat) :
    Except RlpErr (Option TrieNode × List Nat) :=
  decodeRefF (20 * (buf.length + 1)) cachegen buf

/-- decodeNode with the recursion fuel pre-seeded generously. -/
def decodeNode (hash : Option (List Nat)) (cachegen : Nat) (buf : List Nat) :
    Except RlpErr TrieNode :=
  decodeNodeF (20 * (buf.length + 1)) hash cachegen buf

/-! ## Claim C6 -/

/-- RLP list whose total encoded size is exactly 32 bytes: a 17-element list
(sixteen empty strings and one 14-byte value) under a 0xdf header. -/
def inline32 : List Nat :=
  0xDF :: (List.replicate 16 0x80 ++ (0x8E :: List.replicate 14 1))

/-- RLP list whose total encoded size is 33 bytes. -/
def inline33 : List Nat :=
  0xE0 :: (List.replicate 16 0x80 ++ (0x8F :: List.replicate 15 1))

/-- C6: decodeRef decodes the empty string to the empty child and a 32-byte
string to a hash reference, and rejects a 33-byte list as oversized — but it
also accepts the 32-byte list inline32 as an inline embedded node, because
the guard rejects only sizes strictly above hashLen = 32, contradicting the
claim (an RLP list decodes to an inline child only when its total encoded
size is strictly smaller than 32 bytes, anything else erring) and the
function's own error message, which asks for size < 32. -/
theorem decodeRef_32_byte_inline :
    inline32.length = 32 ∧
    decodeRef 0 inline32 =
      .ok (some (.full (List.replicate 16 none ++ [some (.value (List.replicate 14 1))])
        ⟨none, 0, false⟩), []) ∧
    decodeRef 0 inline33 = .error (.oversizedNode 33) ∧
    decodeRef 0 [0x80] = .ok (none, []) ∧
    decodeRef 0 (0xA0 :: List.replicate 32 2) =
      .ok (some (.hash (List.replicate 32 2)), []) := by
  refine ⟨rfl, rfl, rfl, rfl, rfl⟩

end GethSync
